import Mathlib

/-!
Shallow embedding of the task & implementation-log subsystem of
spec-workflow-mcp, covering the two tool handlers present in the source:
`logImplementationHandler` (src/tools/log-implementation.ts) and
`queryLogsHandler` (the query-logs tool), together with the search helpers
`searchArtifacts` / `matchesSearch` / `artifactMatches` and the spec-name
enumeration `getAllSpecNames`.

Filesystem interaction (directory listings, reading tasks.md, loading a log
collection) is abstracted into explicit environments; a failed read is an
`Option` that is `none`.  JavaScript objects carried in artifact payloads are
embedded as a JSON-like inductive `JValue`.
-/

namespace SpecWorkflow

/-- JSON-like values for the free-form artifact field bags. -/
inductive JValue where
  | str (s : String)
  | num (n : Int)
  | boolean (b : Bool)
  | null
  | arr (elems : List JValue)
  | obj (fields : List (String × JValue))

/-- `needle` is a prefix of `hay` (on character lists). -/
def leadsWith : List Char → List Char → Bool
  | _, [] => true
  | [], _ :: _ => false
  | h :: hs, n :: ns => (h == n) && leadsWith hs ns

/-- `needle` occurs as a contiguous substring of `hay` (on character lists);
this is the semantics of JavaScript `hay.includes(needle)`. -/
def hasSubstr (hay needle : List Char) : Bool :=
  match hay with
  | [] => leadsWith [] needle
  | c :: hs => leadsWith (c :: hs) needle || hasSubstr hs needle

/-- Whitespace as stripped by JavaScript `trim()` (the common cases). -/
def isWhitespaceChar (c : Char) : Bool :=
  c == ' ' || c == '\t' || c == '\n' || c == '\r'

/-- JavaScript `s.trim()`: strip leading and trailing whitespace. -/
def jsTrim (s : String) : String :=
  String.mk (((s.toList.dropWhile isWhitespaceChar).reverse.dropWhile
    isWhitespaceChar).reverse)

/-- JavaScript `s.toLowerCase()` (over the characters). -/
def jsToLower (s : String) : String :=
  String.mk (s.toList.map Char.toLower)

/-- Mirrors the JS idiom `hay.toLowerCase().includes(lowerNeedle)` used by the
query handler: case-insensitive substring containment, where the needle has
already been lowered (the code lowers the search term once). -/
def ciIncludes (hay : String) (lowerNeedle : String) : Bool :=
  hasSubstr (hay.toList.map Char.toLower) lowerNeedle.toList

mutual
/-- Mirrors the `matchesSearch` helper inside `searchArtifacts`: a string
matches by case-insensitive substring containment of the lowered search term;
an array matches if some element matches; a value of any other kind never
matches. -/
def matchesSearch (lowerTerm : String) : JValue → Bool
  | .str s => ciIncludes s lowerTerm
  | .arr vs => anyMatches lowerTerm vs
  | _ => false

/-- `value.some(v => matchesSearch(v))` over the elements of an array. -/
def anyMatches (lowerTerm : String) : List JValue → Bool
  | [] => false
  | v :: vs => matchesSearch lowerTerm v || anyMatches lowerTerm vs
end

/-- One artifact record: a free-form bag of named fields (a JS object, as
iterated by `Object.values`). -/
abbrev Artifact := List (String × JValue)

/-- Mirrors the `artifactMatches` helper: some field value of the artifact
object matches the search term. -/
def artifactMatches (lowerTerm : String) (a : Artifact) : Bool :=
  a.any fun fv => matchesSearch lowerTerm fv.2

/-- The `artifacts` bag of a log entry: five optional ordered sequences. -/
structure Artifacts where
  apiEndpoints : Option (List Artifact)
  components : Option (List Artifact)
  functions : Option (List Artifact)
  classes : Option (List Artifact)
  integrations : Option (List Artifact)

/-- Persisted per-entry statistics. -/
structure Statistics where
  linesAdded : Nat
  linesRemoved : Nat
  filesChanged : Nat

/-- A stored implementation-log entry (`ImplementationLogEntry` in types.ts);
`artifacts` is optional because `searchArtifacts` guards on its absence. -/
structure ImplementationLogEntry where
  id : String
  taskId : String
  timestamp : String
  summary : String
  filesModified : List String
  filesCreated : List String
  statistics : Statistics
  artifacts : Option Artifacts

/-- The type-filter guard used for each artifact sequence:
`!artifactTypeFilter || artifactTypeFilter === 'all' || artifactTypeFilter === typeName`. -/
def typeSelected (filter : Option String) (typeName : String) : Bool :=
  match filter with
  | none => true
  | some f => f == "all" || f == typeName

/-- One sequence-scanning block of `searchArtifacts`: when the filter admits
`typeName` and the sequence is present, every matching artifact contributes
one `(tag, artifact)` pair, in sequence order. -/
def searchOneType (lowerTerm : String) (filter : Option String)
    (typeName tag : String) (seq : Option (List Artifact)) :
    List (String × Artifact) :=
  if typeSelected filter typeName then
    match seq with
    | none => []
    | some arts => (arts.filter (artifactMatches lowerTerm)).map fun a => (tag, a)
  else []

/-- Mirrors `searchArtifacts`: lower the term once, then scan the five
artifact sequences in their fixed order, collecting `(type, data)` pairs for
every matching artifact admitted by the type filter. -/
def searchArtifacts (searchTerm : String) (filter : Option String)
    (entry : ImplementationLogEntry) : List (String × Artifact) :=
  match entry.artifacts with
  | none => []
  | some a =>
      let lowerSearchTerm := (jsToLower searchTerm)
      searchOneType lowerSearchTerm filter "apiEndpoints" "apiEndpoint" a.apiEndpoints ++
      searchOneType lowerSearchTerm filter "components" "component" a.components ++
      searchOneType lowerSearchTerm filter "functions" "function" a.functions ++
      searchOneType lowerSearchTerm filter "classes" "class" a.classes ++
      searchOneType lowerSearchTerm filter "integrations" "integration" a.integrations

/-- One result row of the query-logs tool (`LogQueryMatch`); the artifact
slot carries the emitted type tag and the artifact object. -/
structure MatchArtifact where
  type : String
  data : JValue

/-- The shared task context attached to every result row. -/
structure MatchContext where
  summary : String
  filesModified : List String
  filesCreated : List String

structure LogQueryMatch where
  specName : String
  taskId : String
  timestamp : String
  isArchived : Bool
  artifact : MatchArtifact
  context : MatchContext

/-- The structured payload of a successful query (`QueryLogsResponse`); the
source field name `matches` is a reserved word here, so it is `matchRows`. -/
structure QueryLogsResponse where
  matchRows : List LogQueryMatch
  searchTerm : String
  specsSearched : Nat
  logsSearched : Nat

/-- The `ToolResponse` shape as used by the query handler. -/
structure QueryOutcome where
  success : Bool
  message : String
  data : Option QueryLogsResponse

/-- A specification reference: name plus which namespace it was found in. -/
structure SpecRef where
  name : String
  isArchived : Bool

/-- Abstract view of the filesystem as the query handler sees it: the
directory entries under the active and archived specification roots (a
missing root reads as the empty list, matching the ENOENT branch), and the
result of loading a specification's log collection (`none` models a read
failure, the `catch`-and-`continue` branch of the loop). -/
structure QueryEnv where
  activeSpecs : List String
  archivedSpecs : List String
  logsOf : SpecRef → Option (List ImplementationLogEntry)

/-- Mirrors `getAllSpecNames(projectPath, true)`: active directory entries
first (tagged not archived), then archived entries (tagged archived). -/
def getAllSpecNames (env : QueryEnv) : List SpecRef :=
  env.activeSpecs.map (fun n => ⟨n, false⟩) ++
    env.archivedSpecs.map (fun n => ⟨n, true⟩)

/-- Mirrors the `specName` branch of the handler: `fs.access` on the active
specification path first, then the archived path, else a not-found failure.
Directory existence is membership in the corresponding root listing. -/
def resolveSpecs (env : QueryEnv) (specName : Option String) :
    Except String (List SpecRef) :=
  match specName with
  | some n =>
      if env.activeSpecs.contains n then Except.ok [⟨n, false⟩]
      else if env.archivedSpecs.contains n then Except.ok [⟨n, true⟩]
      else Except.error ("Spec not found: " ++ n)
  | none => Except.ok (getAllSpecNames env)

/-- The row pushed for one matching artifact: the `allMatches.push` literal of
the artifact branch of the loop. -/
def mkRow (specName : String) (isArchived : Bool)
    (log : ImplementationLogEntry) (ta : String × Artifact) : LogQueryMatch :=
  { specName := specName, taskId := log.taskId, timestamp := log.timestamp,
    isArchived := isArchived,
    artifact := { type := ta.1, data := JValue.obj ta.2 },
    context := { summary := log.summary,
                 filesModified := log.filesModified,
                 filesCreated := log.filesCreated } }

/-- The row pushed when only the summary matched: the `allMatches.push`
literal of the summary-only branch, with its placeholder artifact slot
(`type: 'function'`, `data: { summary: log.summary }`). -/
def summaryRow (specName : String) (isArchived : Bool)
    (log : ImplementationLogEntry) : LogQueryMatch :=
  { specName := specName, taskId := log.taskId, timestamp := log.timestamp,
    isArchived := isArchived,
    artifact := { type := "function",
                  data := JValue.obj [("summary", JValue.str log.summary)] },
    context := { summary := log.summary,
                 filesModified := log.filesModified,
                 filesCreated := log.filesCreated } }

/-- The per-log body of the handler's search loop: check the summary, collect
matching artifacts, and emit one row per matching artifact, or a single
placeholder row when only the summary matched. -/
def searchLog (searchTerm : String) (artifactType : Option String)
    (specName : String) (isArchived : Bool)
    (log : ImplementationLogEntry) : List LogQueryMatch :=
  let summaryMatch := ciIncludes log.summary (jsToLower searchTerm)
  let arts := searchArtifacts searchTerm artifactType log
  if summaryMatch || !arts.isEmpty then
    if !arts.isEmpty then
      arts.map (mkRow specName isArchived log)
    else if summaryMatch then
      [summaryRow specName isArchived log]
    else []
  else []

/-- One iteration of the per-specification loop: a failed `getAllLogs` is
caught and skipped, contributing zero searched logs and zero rows; a
successful load contributes its length and its rows in stored order. -/
def processSpec (env : QueryEnv) (searchTerm : String)
    (artifactType : Option String) (spec : SpecRef) :
    Nat × List LogQueryMatch :=
  match env.logsOf spec with
  | none => (0, [])
  | some logs =>
      (logs.length,
        (logs.map (searchLog searchTerm artifactType spec.name spec.isArchived)).flatten)

/-- The whole specification loop: accumulate `logsSearchedCount` and
`allMatches` across the enumeration, in enumeration order. -/
def processSpecs (env : QueryEnv) (searchTerm : String)
    (artifactType : Option String) : List SpecRef → Nat × List LogQueryMatch
  | [] => (0, [])
  | s :: rest =>
      let r := processSpec env searchTerm artifactType s
      let rr := processSpecs env searchTerm artifactType rest
      (r.1 + rr.1, r.2 ++ rr.2)

/-- Mirrors `queryLogsHandler`: validate the search term, resolve the
specification set, run the search loop, cap at 100 matches, and build the
message and structured response. -/
def queryLogsHandler (env : QueryEnv) (searchTerm : String)
    (specName artifactType : Option String) : QueryOutcome :=
  if (jsTrim searchTerm).length == 0 then
    { success := false,
      message := "Search term is required and must be non-empty",
      data := none }
  else
    match resolveSpecs env specName with
    | Except.error msg => { success := false, message := msg, data := none }
    | Except.ok specsToSearch =>
        let acc := processSpecs env searchTerm artifactType specsToSearch
        let allMatches := acc.2
        let limitedMatches := allMatches.take 100
        let message :=
          if limitedMatches.length == 0 then
            "No matches found for \"" ++ searchTerm ++ "\""
          else if limitedMatches.length < allMatches.length then
            "Found " ++ toString limitedMatches.length ++
              " match(es) (limited from " ++ toString allMatches.length ++ " total)"
          else
            "Found " ++ toString limitedMatches.length ++ " match(es)"
        { success := true,
          message := message,
          data := some { matchRows := limitedMatches, searchTerm := searchTerm,
                         specsSearched := specsToSearch.length,
                         logsSearched := acc.1 } }

/-- A single-quote character for building the handler's quoted messages. -/
def sq : String := "\x27"

/-- One parsed task row (`parseTasksFromMarkdown` output), as used by the
append handler, which only consults `id`. -/
structure Task where
  id : String
  status : String
  description : String

/-- Caller-supplied statistics of an append request: the schema carries
`linesAdded` and `linesRemoved` (read through `|| 0`, hence `Option`), and a
caller may also send a `filesChanged` value, which the handler never reads. -/
structure StatisticsInput where
  linesAdded : Option Nat
  linesRemoved : Option Nat
  filesChanged : Option Nat

/-- The arguments of a log-implementation append request; `artifacts = none`
models an absent (falsy) artifacts field, while an empty bag `artifacts: \x7b\x7d`
is `some` of a bag whose five sequences are all `none`. -/
structure AppendArgs where
  specName : String
  taskId : String
  summary : String
  filesModified : List String
  filesCreated : List String
  statistics : StatisticsInput
  artifacts : Option Artifacts

/-- Abstract inputs the append handler obtains from outside: the result of
reading and parsing the specification's tasks.md (`none` models an unreadable
or unparseable document, the `catch (parseError)` branch), the stored log
collection for the specification, the fresh id the manager will assign, and
the capture timestamp. -/
structure AppendEnv where
  parsedTasks : Option (List Task)
  storedLogs : List ImplementationLogEntry
  freshId : String
  now : String

/-- The handler's outcome together with the log collection after the call:
`success`/`message` mirror the `ToolResponse`, `stored` is the collection
state after the operation, `created` the persisted entry when one was. -/
structure AppendResult where
  success : Bool
  message : String
  stored : List ImplementationLogEntry
  created : Option ImplementationLogEntry

/-- Modelled from the spec: `ImplementationLogManager.addLogEntry` (the
manager's source is not under src): assign a fresh identifier, keep the rest
of the entry as given, and persist by appending to the collection
(append-only, order preserved). -/
def addLogEntry (stored : List ImplementationLogEntry) (freshId : String)
    (entry : ImplementationLogEntry) :
    List ImplementationLogEntry × ImplementationLogEntry :=
  let created := { entry with id := freshId }
  (stored ++ [created], created)

/-- Mirrors `logImplementationHandler`: reject a falsy `artifacts`; validate
the task id against the parsed task document (an unreadable document is a
failure); then build the entry — `filesChanged` derived from the two file
lists — and append it via the log manager. Failure paths leave the stored
collection unchanged. -/
def logImplementationHandler (env : AppendEnv) (args : AppendArgs) :
    AppendResult :=
  match args.artifacts with
  | none =>
      { success := false,
        message := "Artifacts field is REQUIRED. See tool description for detailed artifact format and examples.",
        stored := env.storedLogs, created := none }
  | some artifacts =>
      match env.parsedTasks with
      | none =>
          { success := false,
            message := "Failed to validate task",
            stored := env.storedLogs, created := none }
      | some tasks =>
          if tasks.any (fun t => t.id == args.taskId) then
            let entry : ImplementationLogEntry :=
              { id := "",
                taskId := args.taskId,
                timestamp := env.now,
                summary := args.summary,
                filesModified := args.filesModified,
                filesCreated := args.filesCreated,
                statistics :=
                  { linesAdded := args.statistics.linesAdded.getD 0,
                    linesRemoved := args.statistics.linesRemoved.getD 0,
                    filesChanged :=
                      args.filesModified.length + args.filesCreated.length },
                artifacts := some artifacts }
            let r := addLogEntry env.storedLogs env.freshId entry
            { success := true,
              message := "Implementation logged for task " ++ sq ++ args.taskId ++ sq,
              stored := r.1, created := some r.2 }
          else
            { success := false,
              message := "Task " ++ sq ++ args.taskId ++ sq ++
                " not found in specification " ++ sq ++ args.specName ++ sq,
              stored := env.storedLogs, created := none }

/-! ## Concrete sample data

Concrete tasks, entries and environments used to evaluate the development on
explicit inputs. -/

def sampleTask : Task :=
  { id := "1", status := "pending", description := "first task" }

/-- A present-but-empty artifacts bag (`artifacts: \x7b\x7d`). -/
def emptyBag : Artifacts :=
  { apiEndpoints := none, components := none, functions := none,
    classes := none, integrations := none }

def wFuncArtifact : Artifact :=
  [("name", JValue.str "hashPassword"), ("location", JValue.str "utils/auth.ts:12")]

def wBagFunc : Artifacts :=
  { apiEndpoints := none, components := none, functions := some [wFuncArtifact],
    classes := none, integrations := none }

/-- An entry whose functions sequence matches a search for "hashpassword". -/
def wLogFunc : ImplementationLogEntry :=
  { id := "e1", taskId := "1", timestamp := "t1",
    summary := "implemented password hashing",
    filesModified := ["src/utils/auth.ts"], filesCreated := ["src/utils/hash.ts"],
    statistics := { linesAdded := 10, linesRemoved := 2, filesChanged := 2 },
    artifacts := some wBagFunc }

/-- An entry that can only match through its summary. -/
def wLogSummaryOnly : ImplementationLogEntry :=
  { id := "e2", taskId := "2", timestamp := "t2",
    summary := "wired the login page",
    filesModified := [], filesCreated := [],
    statistics := { linesAdded := 1, linesRemoved := 0, filesChanged := 0 },
    artifacts := some emptyBag }

/-- One active spec with logs, one archived spec with logs. -/
def wQueryEnv : QueryEnv :=
  { activeSpecs := ["alpha"], archivedSpecs := ["beta"],
    logsOf := fun s =>
      if s.name == "alpha" then some [wLogFunc, wLogSummaryOnly]
      else if s.name == "beta" then some [wLogFunc]
      else none }

/-- 101 matching entries in one spec, to exercise the 100-row cap. -/
def wBigEnv : QueryEnv :=
  { activeSpecs := ["alpha"], archivedSpecs := [],
    logsOf := fun s =>
      if s.name == "alpha" then some (List.replicate 101 wLogFunc) else none }

/-- The archived spec's log collection fails to load. -/
def wFailEnv : QueryEnv :=
  { activeSpecs := ["alpha"], archivedSpecs := ["beta"],
    logsOf := fun s =>
      if s.name == "alpha" then some [wLogFunc, wLogSummaryOnly] else none }

def c1Env : AppendEnv :=
  { parsedTasks := some [sampleTask], storedLogs := [],
    freshId := "log-1", now := "2026-01-01T00:00:00.000Z" }

/-- An append request whose artifacts bag is present but empty. -/
def c1Args : AppendArgs :=
  { specName := "demo-spec", taskId := "1", summary := "did stuff",
    filesModified := [], filesCreated := [],
    statistics := { linesAdded := some 1, linesRemoved := some 0, filesChanged := none },
    artifacts := some emptyBag }

def c3Env : AppendEnv :=
  { parsedTasks := some [sampleTask], storedLogs := [wLogFunc],
    freshId := "log-9", now := "t9" }

/-- An append request naming a task id absent from the parsed document. -/
def c3Args : AppendArgs :=
  { specName := "demo-spec", taskId := "9", summary := "s",
    filesModified := [], filesCreated := [],
    statistics := { linesAdded := none, linesRemoved := none, filesChanged := none },
    artifacts := some wBagFunc }

def c4Env : AppendEnv :=
  { parsedTasks := some [sampleTask], storedLogs := [],
    freshId := "log-3", now := "t0" }

/-- An append request that also smuggles a caller-supplied filesChanged. -/
def c4Args : AppendArgs :=
  { specName := "demo-spec", taskId := "1", summary := "s",
    filesModified := ["a.ts", "b.ts"], filesCreated := ["c.ts"],
    statistics := { linesAdded := some 5, linesRemoved := some 2, filesChanged := some 999 },
    artifacts := some wBagFunc }

/-- The entry the handler persists for `c4Args`. -/
def c4Created : ImplementationLogEntry :=
  { id := "log-3", taskId := "1", timestamp := "t0", summary := "s",
    filesModified := ["a.ts", "b.ts"], filesCreated := ["c.ts"],
    statistics := { linesAdded := 5, linesRemoved := 2, filesChanged := 3 },
    artifacts := some wBagFunc }

/-! ## Spec-side predicates

These follow the wording of the specification (not the code) and are used to
state the refinement-style claims about the matching predicate. -/

/-- Follows the spec: the strings reachable from a value through nested
sequences only — the value itself when it is a string, or recursively an
element of a sequence-valued field. -/
inductive ReachableString : JValue → String → Prop
  | str (s : String) : ReachableString (.str s) s
  | arr {v : JValue} {vs : List JValue} {s : String} :
      v ∈ vs → ReachableString v s → ReachableString (.arr vs) s

/-- Follows the spec discussion of nested payloads: the strings occurring
anywhere inside a value, including inside nested objects. -/
inductive DeepString : JValue → String → Prop
  | str (s : String) : DeepString (.str s) s
  | arr {v : JValue} {vs : List JValue} {s : String} :
      v ∈ vs → DeepString v s → DeepString (.arr vs) s
  | obj {k : String} {v : JValue} {fs : List (String × JValue)} {s : String} :
      (k, v) ∈ fs → DeepString v s → DeepString (.obj fs) s

/-- The artifact sequence a plural type name denotes inside a bag. -/
def seqOfType (b : Artifacts) (tn : String) : Option (List Artifact) :=
  if tn = "apiEndpoints" then b.apiEndpoints
  else if tn = "components" then b.components
  else if tn = "functions" then b.functions
  else if tn = "classes" then b.classes
  else if tn = "integrations" then b.integrations
  else none

/-- Follows the spec: a log entry matches a query iff the term is a
case-insensitive substring of its summary, or of some string reachable
through nested sequences from some field of some artifact object in some
artifact sequence admitted by the type filter. -/
def SpecEntryMatches (searchTerm : String) (filter : Option String)
    (e : ImplementationLogEntry) : Prop :=
  ciIncludes e.summary (jsToLower searchTerm) = true ∨
  ∃ (b : Artifacts) (tn : String) (arts : List Artifact),
    e.artifacts = some b ∧ seqOfType b tn = some arts ∧
    typeSelected filter tn = true ∧
    ∃ a ∈ arts, ∃ fv ∈ a, ∃ s : String,
      ReachableString fv.2 s ∧ ciIncludes s (jsToLower searchTerm) = true

/-- The row-emission condition of the handler loop for one entry: the summary
matched, or at least one artifact matched. -/
def entryMatches (searchTerm : String) (filter : Option String)
    (e : ImplementationLogEntry) : Bool :=
  ciIncludes e.summary (jsToLower searchTerm) ||
    !(searchArtifacts searchTerm filter e).isEmpty

/-! ## Lemmas about the matching predicate -/

theorem anyMatches_eq_any (lt : String) (vs : List JValue) :
    anyMatches lt vs = vs.any (matchesSearch lt) := by
  induction vs with
  | nil => rfl
  | cons v vs ih => simp [anyMatches, List.any_cons, ih]

theorem reachable_arr_inv {vs : List JValue} {s : String}
    (h : ReachableString (.arr vs) s) : ∃ v ∈ vs, ReachableString v s := by
  cases h with
  | arr hx hr => exact ⟨_, hx, hr⟩

/-- The code-side value matcher agrees with the spec-side reading: a value
matches iff some string reachable through nested sequences contains the
lowered term. -/
theorem matchesSearch_iff (lt : String) (v : JValue) :
    matchesSearch lt v = true ↔
      ∃ s, ReachableString v s ∧ ciIncludes s lt = true := by
  match v with
  | JValue.str s =>
      constructor
      · intro h; exact ⟨s, ReachableString.str s, h⟩
      · rintro ⟨t, hr, hc⟩; cases hr; exact hc
  | JValue.num n =>
      refine ⟨fun h => absurd h Bool.false_ne_true, ?_⟩
      rintro ⟨t, hr, _⟩; cases hr
  | JValue.boolean b =>
      refine ⟨fun h => absurd h Bool.false_ne_true, ?_⟩
      rintro ⟨t, hr, _⟩; cases hr
  | JValue.null =>
      refine ⟨fun h => absurd h Bool.false_ne_true, ?_⟩
      rintro ⟨t, hr, _⟩; cases hr
  | JValue.obj fs =>
      refine ⟨fun h => absurd h Bool.false_ne_true, ?_⟩
      rintro ⟨t, hr, _⟩; cases hr
  | JValue.arr vs =>
      rw [show matchesSearch lt (JValue.arr vs) = anyMatches lt vs from rfl,
        anyMatches_eq_any, List.any_eq_true]
      constructor
      · rintro ⟨x, hx, hm⟩
        obtain ⟨s, hr, hc⟩ := (matchesSearch_iff lt x).mp hm
        exact ⟨s, ReachableString.arr hx hr, hc⟩
      · rintro ⟨s, hr, hc⟩
        obtain ⟨x, hx, hr2⟩ := reachable_arr_inv hr
        exact ⟨x, hx, (matchesSearch_iff lt x).mpr ⟨s, hr2, hc⟩⟩
termination_by sizeOf v
decreasing_by
  all_goals
    simp_wf
    have h1 := List.sizeOf_lt_of_mem hx
    omega

/-- The code-side artifact matcher agrees with the spec-side reading: an
artifact matches iff some field value reaches a string containing the term. -/
theorem artifactMatches_iff (lt : String) (a : Artifact) :
    artifactMatches lt a = true ↔
      ∃ fv ∈ a, ∃ s, ReachableString fv.2 s ∧ ciIncludes s lt = true := by
  rw [artifactMatches, List.any_eq_true]
  constructor
  · rintro ⟨fv, hfv, hm⟩
    exact ⟨fv, hfv, (matchesSearch_iff lt fv.2).mp hm⟩
  · rintro ⟨fv, hfv, hs⟩
    exact ⟨fv, hfv, (matchesSearch_iff lt fv.2).mpr hs⟩

theorem searchOneType_ne_nil (lt : String) (ft : Option String) (tn tag : String)
    (seqOpt : Option (List Artifact)) :
    searchOneType lt ft tn tag seqOpt ≠ [] ↔
      (typeSelected ft tn = true ∧ ∃ arts, seqOpt = some arts ∧
        ∃ a ∈ arts, artifactMatches lt a = true) := by
  by_cases h : typeSelected ft tn = true
  · rcases seqOpt with _ | arts
    · simp [searchOneType, h]
    · simp [searchOneType, h, List.map_eq_nil_iff, List.filter_eq_nil_iff]
  · have h' : typeSelected ft tn = false := by
      revert h; cases typeSelected ft tn <;> simp
    simp [searchOneType, h', h]

theorem append5_ne_nil {α : Type} (l1 l2 l3 l4 l5 : List α) :
    l1 ++ l2 ++ l3 ++ l4 ++ l5 ≠ [] ↔
      (l1 ≠ [] ∨ l2 ≠ [] ∨ l3 ≠ [] ∨ l4 ≠ [] ∨ l5 ≠ []) := by
  simp only [ne_eq, List.append_eq_nil]
  tauto

theorem searchArtifacts_eq (term : String) (ft : Option String)
    (e : ImplementationLogEntry) (b : Artifacts) (he : e.artifacts = some b) :
    searchArtifacts term ft e =
      searchOneType (jsToLower term) ft "apiEndpoints" "apiEndpoint" b.apiEndpoints ++
      searchOneType (jsToLower term) ft "components" "component" b.components ++
      searchOneType (jsToLower term) ft "functions" "function" b.functions ++
      searchOneType (jsToLower term) ft "classes" "class" b.classes ++
      searchOneType (jsToLower term) ft "integrations" "integration" b.integrations := by
  rw [searchArtifacts, he]

/-- The collected matching-artifact list is nonempty exactly when some
artifact in some admitted sequence matches. -/
theorem searchArtifacts_ne_nil_iff (term : String) (ft : Option String)
    (e : ImplementationLogEntry) :
    searchArtifacts term ft e ≠ [] ↔
      ∃ (b : Artifacts) (tn : String) (arts : List Artifact),
        e.artifacts = some b ∧ seqOfType b tn = some arts ∧
        typeSelected ft tn = true ∧
        ∃ a ∈ arts, artifactMatches (jsToLower term) a = true := by
  cases he : e.artifacts with
  | none =>
      rw [searchArtifacts, he]
      simp [he]
  | some b =>
      rw [searchArtifacts_eq term ft e b he, append5_ne_nil]
      simp only [searchOneType_ne_nil]
      constructor
      · rintro (⟨hsel, arts, hseq, hex⟩ | ⟨hsel, arts, hseq, hex⟩ |
          ⟨hsel, arts, hseq, hex⟩ | ⟨hsel, arts, hseq, hex⟩ | ⟨hsel, arts, hseq, hex⟩)
        · exact ⟨b, "apiEndpoints", arts, rfl, by
            rw [show seqOfType b "apiEndpoints" = b.apiEndpoints from rfl]; exact hseq, hsel, hex⟩
        · exact ⟨b, "components", arts, rfl, by
            rw [show seqOfType b "components" = b.components from rfl]; exact hseq, hsel, hex⟩
        · exact ⟨b, "functions", arts, rfl, by
            rw [show seqOfType b "functions" = b.functions from rfl]; exact hseq, hsel, hex⟩
        · exact ⟨b, "classes", arts, rfl, by
            rw [show seqOfType b "classes" = b.classes from rfl]; exact hseq, hsel, hex⟩
        · exact ⟨b, "integrations", arts, rfl, by
            rw [show seqOfType b "integrations" = b.integrations from rfl]; exact hseq, hsel, hex⟩
      · rintro ⟨b2, tn, arts, he2, hseq, hsel, hex⟩
        have hb : b2 = b := (Option.some.inj he2).symm
        subst hb
        by_cases h1 : tn = "apiEndpoints"
        · subst h1; exact Or.inl ⟨hsel, arts, hseq, hex⟩
        · by_cases h2 : tn = "components"
          · subst h2; exact Or.inr (Or.inl ⟨hsel, arts, hseq, hex⟩)
          · by_cases h3 : tn = "functions"
            · subst h3; exact Or.inr (Or.inr (Or.inl ⟨hsel, arts, hseq, hex⟩))
            · by_cases h4 : tn = "classes"
              · subst h4; exact Or.inr (Or.inr (Or.inr (Or.inl ⟨hsel, arts, hseq, hex⟩)))
              · by_cases h5 : tn = "integrations"
                · subst h5; exact Or.inr (Or.inr (Or.inr (Or.inr ⟨hsel, arts, hseq, hex⟩)))
                · rw [seqOfType, if_neg h1, if_neg h2, if_neg h3, if_neg h4, if_neg h5] at hseq
                  exact absurd hseq (by simp)

/-- The handler's row-emission condition agrees with the spec's matching
predicate. -/
theorem entryMatches_iff_spec (term : String) (ft : Option String)
    (e : ImplementationLogEntry) :
    entryMatches term ft e = true ↔ SpecEntryMatches term ft e := by
  rw [entryMatches, Bool.or_eq_true, SpecEntryMatches]
  apply or_congr Iff.rfl
  rw [Bool.not_eq_true', List.isEmpty_eq_false, searchArtifacts_ne_nil_iff]
  apply exists_congr; intro b
  apply exists_congr; intro tn
  apply exists_congr; intro arts
  refine and_congr Iff.rfl (and_congr Iff.rfl (and_congr Iff.rfl ?_))
  exact exists_congr fun a => and_congr Iff.rfl (artifactMatches_iff _ a)

theorem searchLog_ne_nil (term : String) (ft : Option String) (sn : String)
    (arch : Bool) (log : ImplementationLogEntry) :
    searchLog term ft sn arch log ≠ [] ↔ entryMatches term ft log = true := by
  simp only [searchLog, entryMatches]
  cases hsm : ciIncludes log.summary (jsToLower term) <;>
    cases harts : searchArtifacts term ft log <;>
      simp [hsm, harts]

theorem searchLog_of_arts (term : String) (ft : Option String) (sn : String)
    (arch : Bool) (log : ImplementationLogEntry)
    (h : searchArtifacts term ft log ≠ []) :
    searchLog term ft sn arch log =
      (searchArtifacts term ft log).map (mkRow sn arch log) := by
  have h1 : (searchArtifacts term ft log).isEmpty = false := by
    rw [List.isEmpty_eq_false]; exact h
  simp [searchLog, h1]

theorem searchLog_summary_only (term : String) (ft : Option String) (sn : String)
    (arch : Bool) (log : ImplementationLogEntry)
    (harts : searchArtifacts term ft log = [])
    (hsm : ciIncludes log.summary (jsToLower term) = true) :
    searchLog term ft sn arch log = [summaryRow sn arch log] := by
  simp [searchLog, harts, hsm]

theorem searchLog_no_match (term : String) (ft : Option String) (sn : String)
    (arch : Bool) (log : ImplementationLogEntry)
    (harts : searchArtifacts term ft log = [])
    (hsm : ciIncludes log.summary (jsToLower term) = false) :
    searchLog term ft sn arch log = [] := by
  simp [searchLog, harts, hsm]

theorem mem_searchLog (term : String) (ft : Option String) (sn : String)
    (arch : Bool) (log : ImplementationLogEntry) (r : LogQueryMatch)
    (hr : r ∈ searchLog term ft sn arch log) :
    (∃ ta ∈ searchArtifacts term ft log, r = mkRow sn arch log ta) ∨
      r = summaryRow sn arch log := by
  rcases harts : searchArtifacts term ft log with _ | ⟨p, rest⟩
  · cases hsm : ciIncludes log.summary (jsToLower term)
    · rw [searchLog_no_match term ft sn arch log harts hsm] at hr; cases hr
    · rw [searchLog_summary_only term ft sn arch log harts hsm] at hr
      exact Or.inr (List.mem_singleton.mp hr)
  · have h : searchArtifacts term ft log ≠ [] := by rw [harts]; simp
    rw [searchLog_of_arts term ft sn arch log h] at hr
    obtain ⟨ta, hta, hre⟩ := List.mem_map.mp hr
    exact Or.inl ⟨ta, harts ▸ hta, hre.symm⟩

theorem searchLog_row_fields (term : String) (ft : Option String) (sn : String)
    (arch : Bool) (log : ImplementationLogEntry) (r : LogQueryMatch)
    (hr : r ∈ searchLog term ft sn arch log) :
    r.specName = sn ∧ r.isArchived = arch ∧ r.taskId = log.taskId ∧
      r.context = ⟨log.summary, log.filesModified, log.filesCreated⟩ := by
  rcases mem_searchLog term ft sn arch log r hr with ⟨ta, _, rfl⟩ | rfl
  · exact ⟨rfl, rfl, rfl, rfl⟩
  · exact ⟨rfl, rfl, rfl, rfl⟩

theorem processSpec_none (env : QueryEnv) (term : String) (ft : Option String)
    (s : SpecRef) (h : env.logsOf s = none) :
    processSpec env term ft s = (0, []) := by
  simp [processSpec, h]

theorem processSpecs_append (env : QueryEnv) (term : String) (ft : Option String)
    (l1 l2 : List SpecRef) :
    processSpecs env term ft (l1 ++ l2) =
      ((processSpecs env term ft l1).1 + (processSpecs env term ft l2).1,
       (processSpecs env term ft l1).2 ++ (processSpecs env term ft l2).2) := by
  induction l1 with
  | nil => simp [processSpecs]
  | cons s rest ih => simp [processSpecs, ih, Nat.add_assoc, List.append_assoc]

theorem mem_processSpecs_rows (env : QueryEnv) (term : String)
    (ft : Option String) (specs : List SpecRef) (r : LogQueryMatch)
    (hr : r ∈ (processSpecs env term ft specs).2) :
    ∃ s ∈ specs, ∃ logs, env.logsOf s = some logs ∧
      ∃ log ∈ logs, r ∈ searchLog term ft s.name s.isArchived log := by
  induction specs with
  | nil => cases hr
  | cons s rest ih =>
      simp only [processSpecs] at hr
      rcases List.mem_append.mp hr with h | h
      · rcases hl : env.logsOf s with _ | logs
        · rw [processSpec_none env term ft s hl] at h; cases h
        · rw [processSpec, hl] at h
          obtain ⟨l, hl2, hrl⟩ := List.mem_flatten.mp h
          obtain ⟨log, hlog, hle⟩ := List.mem_map.mp hl2
          exact ⟨s, List.mem_cons_self s rest, logs, hl, log, hlog, hle ▸ hrl⟩
      · obtain ⟨s2, hs2, rest2⟩ := ih h
        exact ⟨s2, List.mem_cons_of_mem s hs2, rest2⟩

/-- Unfolding of the handler on a nonempty search term and a resolved
specification list. -/
theorem queryLogsHandler_ok (env : QueryEnv) (term : String)
    (sn ft : Option String) (specs : List SpecRef)
    (hterm : (jsTrim term).length ≠ 0)
    (hres : resolveSpecs env sn = Except.ok specs) :
    queryLogsHandler env term sn ft =
      { success := true,
        message :=
          if ((processSpecs env term ft specs).2.take 100).length == 0 then
            "No matches found for \"" ++ term ++ "\""
          else if ((processSpecs env term ft specs).2.take 100).length <
              (processSpecs env term ft specs).2.length then
            "Found " ++ toString ((processSpecs env term ft specs).2.take 100).length ++
              " match(es) (limited from " ++
              toString (processSpecs env term ft specs).2.length ++ " total)"
          else
            "Found " ++ toString ((processSpecs env term ft specs).2.take 100).length ++
              " match(es)",
        data := some { matchRows := (processSpecs env term ft specs).2.take 100,
                       searchTerm := term,
                       specsSearched := specs.length,
                       logsSearched := (processSpecs env term ft specs).1 } } := by
  have hc : ((jsTrim term).length == 0) = false := by
    simp [hterm]
  simp only [queryLogsHandler, hc, hres]
  rfl

/-- The handler fails exactly with the not-found message on an unresolvable
spec name. -/
theorem queryLogsHandler_err (env : QueryEnv) (term : String)
    (sn ft : Option String) (msg : String)
    (hterm : (jsTrim term).length ≠ 0)
    (hres : resolveSpecs env sn = Except.error msg) :
    queryLogsHandler env term sn ft =
      { success := false, message := msg, data := none } := by
  have hc : ((jsTrim term).length == 0) = false := by
    simp [hterm]
  simp only [queryLogsHandler, hc, hres]
  rfl

theorem mem_searchArtifacts_functions (term : String) (ft : Option String)
    (log : ImplementationLogEntry) (b : Artifacts) (fs : List Artifact)
    (f : Artifact) (hb : log.artifacts = some b) (hfs : b.functions = some fs)
    (hsel : typeSelected ft "functions" = true) (hf : f ∈ fs)
    (hm : artifactMatches (jsToLower term) f = true) :
    ("function", f) ∈ searchArtifacts term ft log := by
  rw [searchArtifacts_eq term ft log b hb]
  apply List.mem_append_left
  apply List.mem_append_left
  apply List.mem_append_right
  rw [searchOneType.eq_def, if_pos hsel, hfs]
  exact List.mem_map.mpr ⟨f, List.mem_filter.mpr ⟨hf, hm⟩, rfl⟩

/-! ## Claim theorems -/

/-- C1: the claim says an append request with a present-but-empty artifacts
bag is rejected with a validation error and nothing is persisted.  The code
only rejects a falsy `artifacts`; an empty bag is truthy, so the handler
accepts it and persists the entry — the stored collection grows by one. -/
theorem c1_empty_artifacts_accepted :
    (logImplementationHandler c1Env c1Args).success = true ∧
    (logImplementationHandler c1Env c1Args).stored.length =
      c1Env.storedLogs.length + 1 := by
  constructor <;> rfl

/-- C3: appending with a taskId that is not the id of any parsed task fails
with a not-found message echoing the taskId (and spec name), and the stored
log collection is unchanged (same list, hence same count). -/
theorem c3_unknown_taskId (env : AppendEnv) (args : AppendArgs)
    (tasks : List Task) (a : Artifacts)
    (hart : args.artifacts = some a)
    (hparse : env.parsedTasks = some tasks)
    (hmiss : ∀ t ∈ tasks, t.id ≠ args.taskId) :
    (logImplementationHandler env args).success = false ∧
    (logImplementationHandler env args).message =
      "Task " ++ sq ++ args.taskId ++ sq ++ " not found in specification " ++
        sq ++ args.specName ++ sq ∧
    (logImplementationHandler env args).stored = env.storedLogs ∧
    (logImplementationHandler env args).stored.length = env.storedLogs.length := by
  have hany : tasks.any (fun t => t.id == args.taskId) = false := by
    rw [List.any_eq_false]
    intro t ht
    simpa using hmiss t ht
  simp [logImplementationHandler, hart, hparse, hany]

/-- C4: every successfully persisted entry has
`statistics.filesChanged = len(filesModified) + len(filesCreated)`, whatever
`filesChanged` value the caller supplied in its statistics. -/
theorem c4_filesChanged_derived (env : AppendEnv) (args : AppendArgs)
    (e : ImplementationLogEntry)
    (hok : (logImplementationHandler env args).created = some e) :
    e.statistics.filesChanged =
      args.filesModified.length + args.filesCreated.length := by
  rcases hart : args.artifacts with _ | artifacts
  · simp [logImplementationHandler, hart] at hok
  · rcases hp : env.parsedTasks with _ | tasks
    · simp [logImplementationHandler, hart, hp] at hok
    · by_cases hany : tasks.any (fun t => t.id == args.taskId) = true
      · simp [logImplementationHandler, hart, hp, hany, addLogEntry] at hok
        rw [← hok]
      · simp [logImplementationHandler, hart, hp, hany] at hok

/-- C5: per searched entry, if one or more artifacts match the result has
exactly one row per matching artifact (the map over the matching pairs); if
only the summary matches there is exactly one placeholder row; if neither
matches there are no rows; and every row carries the entry's taskId,
summary, filesModified and filesCreated as shared context. -/
theorem c5_result_composition (term : String) (ft : Option String) (sn : String)
    (arch : Bool) (log : ImplementationLogEntry) :
    (searchArtifacts term ft log ≠ [] →
      searchLog term ft sn arch log =
        (searchArtifacts term ft log).map (mkRow sn arch log)) ∧
    (searchArtifacts term ft log = [] →
      ciIncludes log.summary (jsToLower term) = true →
      searchLog term ft sn arch log = [summaryRow sn arch log]) ∧
    (searchArtifacts term ft log = [] →
      ciIncludes log.summary (jsToLower term) = false →
      searchLog term ft sn arch log = []) ∧
    (∀ r ∈ searchLog term ft sn arch log,
      r.taskId = log.taskId ∧
      r.context = { summary := log.summary, filesModified := log.filesModified,
                    filesCreated := log.filesCreated }) :=
  ⟨searchLog_of_arts term ft sn arch log,
   searchLog_summary_only term ft sn arch log,
   searchLog_no_match term ft sn arch log,
   fun r hr =>
     ⟨(searchLog_row_fields term ft sn arch log r hr).2.2.1,
      (searchLog_row_fields term ft sn arch log r hr).2.2.2⟩⟩

/-- C6: an entry contributes at least one row iff the term is a
case-insensitive substring of its summary, or of some string reachable
through nested sequences from some field of some artifact in a sequence
admitted by the type filter (all five types when the filter is absent or
`all`, as `typeSelected` encodes); equivalently for the handler's emission
condition `entryMatches`. -/
theorem c6_matching_predicate (term : String) (ft : Option String)
    (sn : String) (arch : Bool) (e : ImplementationLogEntry) :
    (searchLog term ft sn arch e ≠ [] ↔ SpecEntryMatches term ft e) ∧
    (entryMatches term ft e = true ↔ SpecEntryMatches term ft e) :=
  ⟨(searchLog_ne_nil term ft sn arch e).trans (entryMatches_iff_spec term ft e),
   entryMatches_iff_spec term ft e⟩

/-- C2: the returned match rows are the first-100 prefix (in order) of the
full match sequence; when truncation happened the message reports it together
with the true total; when it did not, the message reports exactly the total
number of matches. -/
theorem c2_result_capping (env : QueryEnv) (term : String) (sn ft : Option String)
    (specs : List SpecRef)
    (hterm : (jsTrim term).length ≠ 0)
    (hres : resolveSpecs env sn = Except.ok specs) :
    (queryLogsHandler env term sn ft).data =
      some { matchRows := (processSpecs env term ft specs).2.take 100,
             searchTerm := term, specsSearched := specs.length,
             logsSearched := (processSpecs env term ft specs).1 } ∧
    ((processSpecs env term ft specs).2.take 100).length ≤ 100 ∧
    (100 < (processSpecs env term ft specs).2.length →
      (queryLogsHandler env term sn ft).message =
        "Found " ++ toString ((processSpecs env term ft specs).2.take 100).length ++
          " match(es) (limited from " ++
          toString (processSpecs env term ft specs).2.length ++ " total)") ∧
    ((processSpecs env term ft specs).2.length ≤ 100 →
      0 < (processSpecs env term ft specs).2.length →
      (queryLogsHandler env term sn ft).message =
        "Found " ++ toString (processSpecs env term ft specs).2.length ++
          " match(es)") := by
  rw [queryLogsHandler_ok env term sn ft specs hterm hres]
  refine ⟨rfl, ?_, ?_, ?_⟩
  · rw [List.length_take]; exact min_le_left _ _
  · intro h
    have hlen : ((processSpecs env term ft specs).2.take 100).length = 100 := by
      rw [List.length_take]; omega
    have h0 : (((processSpecs env term ft specs).2.take 100).length == 0) = false := by
      rw [hlen]; rfl
    have h1 : ((processSpecs env term ft specs).2.take 100).length <
        (processSpecs env term ft specs).2.length := by
      rw [hlen]; omega
    simp only [h0, Bool.false_eq_true, if_false, if_pos h1]
  · intro hle hpos
    have ht : (processSpecs env term ft specs).2.take 100 =
        (processSpecs env term ft specs).2 := List.take_of_length_le hle
    have h0 : ((processSpecs env term ft specs).2.length == 0) = false := by
      have hne : (processSpecs env term ft specs).2.length ≠ 0 := by omega
      exact beq_eq_false_iff_ne.mpr hne
    simp only [ht, h0, Bool.false_eq_true, if_false, Nat.lt_irrefl, if_false]

/-- C7: a given specName resolves in the active namespace first, then the
archived one; an archived-only name yields a successful query all of whose
rows are tagged `isArchived = true`; a name in neither namespace yields a
not-found failure naming the spec. -/
theorem c7_specname_resolution (env : QueryEnv) (term : String) (n : String)
    (ft : Option String) (hterm : (jsTrim term).length ≠ 0) :
    (env.activeSpecs.contains n = true →
      resolveSpecs env (some n) = Except.ok [⟨n, false⟩]) ∧
    (env.activeSpecs.contains n = false → env.archivedSpecs.contains n = true →
      resolveSpecs env (some n) = Except.ok [⟨n, true⟩] ∧
      (queryLogsHandler env term (some n) ft).success = true ∧
      ∀ resp, (queryLogsHandler env term (some n) ft).data = some resp →
        ∀ r ∈ resp.matchRows, r.isArchived = true) ∧
    (env.activeSpecs.contains n = false → env.archivedSpecs.contains n = false →
      (queryLogsHandler env term (some n) ft).success = false ∧
      (queryLogsHandler env term (some n) ft).message = "Spec not found: " ++ n ∧
      (queryLogsHandler env term (some n) ft).data = none) := by
  refine ⟨?_, ?_, ?_⟩
  · intro h
    have h' : n ∈ env.activeSpecs := by simpa using h
    simp [resolveSpecs, h']
  · intro h1 h2
    have h1' : n ∉ env.activeSpecs := by simpa using h1
    have h2' : n ∈ env.archivedSpecs := by simpa using h2
    have hres : resolveSpecs env (some n) = Except.ok [⟨n, true⟩] := by
      simp [resolveSpecs, h1', h2']
    refine ⟨hres, ?_, ?_⟩
    · rw [queryLogsHandler_ok env term (some n) ft [⟨n, true⟩] hterm hres]
    · intro resp hdata r hr
      rw [queryLogsHandler_ok env term (some n) ft [⟨n, true⟩] hterm hres] at hdata
      obtain rfl := (Option.some.inj hdata).symm
      have hmem : r ∈ (processSpecs env term ft [⟨n, true⟩]).2 :=
        List.take_subset 100 _ hr
      obtain ⟨s, hs, logs, hlogs, log, hlog, hrl⟩ :=
        mem_processSpecs_rows env term ft [⟨n, true⟩] r hmem
      obtain rfl := List.mem_singleton.mp hs
      exact (searchLog_row_fields term ft _ _ log r hrl).2.1
  · intro h1 h2
    have h1' : n ∉ env.activeSpecs := by simpa using h1
    have h2' : n ∉ env.archivedSpecs := by simpa using h2
    have hres : resolveSpecs env (some n) =
        Except.error ("Spec not found: " ++ n) := by
      simp [resolveSpecs, h1', h2']
    rw [queryLogsHandler_err env term (some n) ft _ hterm hres]
    exact ⟨rfl, rfl, rfl⟩

/-- C8: a specification whose log collection fails to load contributes zero
searched logs and zero rows, the enumeration behaves as if it were absent,
and the overall query (nonempty term, no specName) still succeeds. -/
theorem c8_failure_isolation (env : QueryEnv) (term : String) (ft : Option String)
    (pre post : List SpecRef) (s : SpecRef)
    (hfail : env.logsOf s = none) :
    processSpec env term ft s = (0, []) ∧
    processSpecs env term ft (pre ++ s :: post) =
      processSpecs env term ft (pre ++ post) ∧
    ((jsTrim term).length ≠ 0 →
      (queryLogsHandler env term none ft).success = true) := by
  refine ⟨processSpec_none env term ft s hfail, ?_, ?_⟩
  · rw [processSpecs_append, processSpecs_append]
    have hcons : processSpecs env term ft (s :: post) =
        processSpecs env term ft post := by
      simp [processSpecs, processSpec_none env term ft s hfail]
    rw [hcons]
  · intro hterm
    rw [queryLogsHandler_ok env term none ft (getAllSpecNames env) hterm rfl]

/-- C9: a summary-only match emits exactly one row whose artifact slot is
`type = "function"` with `data = \x7bsummary\x7d`, and a row emitted for a real
matching function artifact carries the same `"function"` type tag, so the tag
alone cannot distinguish the two. -/
theorem c9_placeholder_type (term : String) (ft : Option String) (sn : String)
    (arch : Bool) (log : ImplementationLogEntry) :
    ((searchArtifacts term ft log = [] →
      ciIncludes log.summary (jsToLower term) = true →
      searchLog term ft sn arch log = [summaryRow sn arch log]) ∧
    (summaryRow sn arch log).artifact.type = "function" ∧
    (summaryRow sn arch log).artifact.data =
      JValue.obj [("summary", JValue.str log.summary)]) ∧
    (∀ (b : Artifacts) (fs : List Artifact) (f : Artifact),
      log.artifacts = some b → b.functions = some fs →
      typeSelected ft "functions" = true → f ∈ fs →
      artifactMatches (jsToLower term) f = true →
      mkRow sn arch log ("function", f) ∈ searchLog term ft sn arch log ∧
      (mkRow sn arch log ("function", f)).artifact.type = "function") := by
  refine ⟨⟨searchLog_summary_only term ft sn arch log, rfl, rfl⟩, ?_⟩
  intro b fs f hb hfs hsel hf hm
  have hmem := mem_searchArtifacts_functions term ft log b fs f hb hfs hsel hf hm
  have hne : searchArtifacts term ft log ≠ [] := List.ne_nil_of_mem hmem
  rw [searchLog_of_arts term ft sn arch log hne]
  exact ⟨List.mem_map.mpr ⟨("function", f), hmem, rfl⟩, rfl⟩

/-- C10: the matching predicate never looks inside object-valued fields: an
object value never matches, even when the search term occurs in a string
nested inside it, and an artifact whose only field holds such an object
contributes no match. -/
theorem c10_nested_objects_unsearched (lt : String)
    (fs : List (String × JValue)) (s : String)
    (_hdeep : DeepString (JValue.obj fs) s)
    (_hhit : ciIncludes s lt = true) :
    matchesSearch lt (JValue.obj fs) = false ∧
    ∀ k : String, artifactMatches lt [(k, JValue.obj fs)] = false := by
  refine ⟨rfl, fun k => ?_⟩
  simp [artifactMatches]
  rfl


theorem c2_result_capping_witness :
    (jsTrim "hashpassword").length ≠ 0 ∧
    100 < (processSpecs wBigEnv "hashpassword" none (getAllSpecNames wBigEnv)).2.length ∧
    (queryLogsHandler wBigEnv "hashpassword" none none).data =
      some { matchRows := (processSpecs wBigEnv "hashpassword" none
               (getAllSpecNames wBigEnv)).2.take 100,
             searchTerm := "hashpassword",
             specsSearched := (getAllSpecNames wBigEnv).length,
             logsSearched := (processSpecs wBigEnv "hashpassword" none
               (getAllSpecNames wBigEnv)).1 } ∧
    (queryLogsHandler wBigEnv "hashpassword" none none).message =
      "Found " ++ toString ((processSpecs wBigEnv "hashpassword" none
          (getAllSpecNames wBigEnv)).2.take 100).length ++
        " match(es) (limited from " ++
        toString (processSpecs wBigEnv "hashpassword" none
          (getAllSpecNames wBigEnv)).2.length ++ " total)" := by
  have h := c2_result_capping wBigEnv "hashpassword" none none
    (getAllSpecNames wBigEnv) (by decide) rfl
  exact ⟨by decide, by decide, h.1, h.2.2.1 (by decide)⟩

theorem c3_unknown_taskId_witness :
    (logImplementationHandler c3Env c3Args).success = false ∧
    (logImplementationHandler c3Env c3Args).message =
      "Task " ++ sq ++ c3Args.taskId ++ sq ++ " not found in specification " ++
        sq ++ c3Args.specName ++ sq ∧
    (logImplementationHandler c3Env c3Args).stored = c3Env.storedLogs ∧
    (logImplementationHandler c3Env c3Args).stored.length =
      c3Env.storedLogs.length :=
  c3_unknown_taskId c3Env c3Args [sampleTask] wBagFunc rfl rfl (by decide)

theorem c4_filesChanged_derived_witness :
    (logImplementationHandler c4Env c4Args).created = some c4Created ∧
    c4Created.statistics.filesChanged =
      c4Args.filesModified.length + c4Args.filesCreated.length :=
  ⟨rfl, c4_filesChanged_derived c4Env c4Args c4Created rfl⟩

theorem c5_result_composition_witness :
    searchArtifacts "hashpassword" none wLogFunc ≠ [] ∧
    searchLog "hashpassword" none "alpha" false wLogFunc =
      (searchArtifacts "hashpassword" none wLogFunc).map
        (mkRow "alpha" false wLogFunc) := by
  have hne : searchArtifacts "hashpassword" none wLogFunc ≠ [] :=
    List.length_pos.mp (by decide)
  exact ⟨hne,
    (c5_result_composition "hashpassword" none "alpha" false wLogFunc).1 hne⟩

theorem c7_specname_resolution_witness :
    resolveSpecs wQueryEnv (some "beta") = Except.ok [⟨"beta", true⟩] ∧
    (queryLogsHandler wQueryEnv "hashpassword" (some "beta") none).success = true ∧
    (queryLogsHandler wQueryEnv "hashpassword" (some "gamma") none).success = false ∧
    (queryLogsHandler wQueryEnv "hashpassword" (some "gamma") none).message =
      "Spec not found: " ++ "gamma" := by
  have hb := c7_specname_resolution wQueryEnv "hashpassword" "beta" none (by decide)
  have hg := c7_specname_resolution wQueryEnv "hashpassword" "gamma" none (by decide)
  have h2 := hb.2.1 (by decide) (by decide)
  have h3 := hg.2.2 (by decide) (by decide)
  exact ⟨h2.1, h2.2.1, h3.1, h3.2.1⟩

theorem c8_failure_isolation_witness :
    processSpec wFailEnv "hashpassword" none ⟨"beta", true⟩ = (0, []) ∧
    processSpecs wFailEnv "hashpassword" none
        ([⟨"alpha", false⟩] ++ ⟨"beta", true⟩ :: []) =
      processSpecs wFailEnv "hashpassword" none ([⟨"alpha", false⟩] ++ []) ∧
    (queryLogsHandler wFailEnv "hashpassword" none none).success = true := by
  have h := c8_failure_isolation wFailEnv "hashpassword" none
    [⟨"alpha", false⟩] [] ⟨"beta", true⟩ rfl
  exact ⟨h.1, h.2.1, h.2.2 (by decide)⟩

theorem c9_placeholder_type_witness :
    searchLog "login" none "alpha" false wLogSummaryOnly =
      [summaryRow "alpha" false wLogSummaryOnly] ∧
    (summaryRow "alpha" false wLogSummaryOnly).artifact.type = "function" ∧
    (summaryRow "alpha" false wLogSummaryOnly).artifact.data =
      JValue.obj [("summary", JValue.str wLogSummaryOnly.summary)] ∧
    mkRow "alpha" false wLogFunc ("function", wFuncArtifact) ∈
      searchLog "hashpassword" none "alpha" false wLogFunc ∧
    (mkRow "alpha" false wLogFunc ("function", wFuncArtifact)).artifact.type =
      "function" := by
  have h1 := c9_placeholder_type "login" none "alpha" false wLogSummaryOnly
  have h2 := c9_placeholder_type "hashpassword" none "alpha" false wLogFunc
  have h3 := h2.2 wBagFunc [wFuncArtifact] wFuncArtifact rfl rfl rfl
    (List.mem_singleton.mpr rfl) rfl
  exact ⟨h1.1.1 rfl rfl, h1.1.2.1, h1.1.2.2, h3.1, h3.2⟩

theorem c10_nested_objects_unsearched_witness :
    matchesSearch "hashpassword"
      (JValue.obj [("name", JValue.str "hashPassword")]) = false ∧
    artifactMatches "hashpassword"
      [("nested", JValue.obj [("name", JValue.str "hashPassword")])] = false := by
  have h := c10_nested_objects_unsearched "hashpassword"
    [("name", JValue.str "hashPassword")] "hashPassword"
    (DeepString.obj (List.mem_singleton.mpr rfl) (DeepString.str "hashPassword"))
    rfl
  exact ⟨h.1, h.2 "nested"⟩


end SpecWorkflow
